import Mathlib

/-!
Verification of the flyer-to-calendar pipeline (`src/app.py`).

The program extracts event fields from a model response, normalizes them
into a calendar event (`create_ics_file`), derives a download filename
(`slugify`), and runs a per-file batch loop.  We embed those functions
shallowly: Python dictionaries produced by `json.loads` become association
lists over a `JsonVal` type, Python exceptions become an explicit `PyExc`
error type carried by `Except`, and the relevant pieces of the two
third-party libraries the code calls into (`json.loads`, the
relevant `re` patterns, the permissive date parsing) are modelled as executable
Lean functions, faithful to the library behaviour on the inputs the
claims are about.
-/

/-- Python exceptions distinguished by the `except` clauses of the program.
`create_ics_file` catches `ValueError` and `KeyError`; `AttributeError`
arises from calling `.get` on a non-dict; `TypeError` arises from passing
a non-string to `dateutil.parser.parse` or to `re.sub`; and
`UnboundLocalError` arises at `app.py:106` from reading the name `e`
after the except clause has rebound it to the exception and deleted it. -/
inductive PyExc where
  | valueError
  | keyError
  | typeError
  | attributeError
  | unboundLocalError
deriving DecidableEq

/-- JSON values as returned by `json.loads`: the value space of the
`event_data` dictionary.  Numbers are modelled as integers (the flyer
fields the claims concern are strings; fractional numbers are outside
the model). -/
inductive JsonVal where
  | str (s : String)
  | num (n : Int)
  | bool (b : Bool)
  | null
  | arr (elems : List JsonVal)
  | obj (members : List (String × JsonVal))

/-- Is this JSON value a string?  (Used to state which `ExtractedFields`
are string-typed, as the data model of the spec declares.) -/
def JsonVal.isStr : JsonVal → Bool
  | JsonVal.str _ => true
  | _ => false

/-- Is this JSON value an object (a Python dict after `json.loads`)? -/
def JsonVal.isObj : JsonVal → Bool
  | JsonVal.obj _ => true
  | _ => false

/-- Python truthiness of a JSON value, as tested by `if event_data:`:
empty containers, empty strings, zero, `False` and `None` are falsy. -/
def pyTruthy : JsonVal → Bool
  | JsonVal.str s => !s.isEmpty
  | JsonVal.num n => n != 0
  | JsonVal.bool b => b
  | JsonVal.null => false
  | JsonVal.arr elems => !elems.isEmpty
  | JsonVal.obj members => !members.isEmpty

/-- A wall-clock timestamp (naive datetime, second precision). -/
structure DateTime where
  year : Nat
  month : Nat
  day : Nat
  hour : Nat
  minute : Nat
  second : Nat
deriving DecidableEq

/-- A fixed concrete timestamp used as "now" in concrete evaluations. -/
def epochDT : DateTime := ⟨2024, 1, 1, 0, 0, 0⟩

-- ## Modelled `json.loads`

/-- Whitespace characters skipped by the JSON grammar. -/
def skipWs (s : List Char) : List Char :=
  s.dropWhile (fun c => c = ' ' || c = '\n' || c = '\t' || c = '\x0d')

/-- JSON string escape characters (`\uXXXX` escapes are outside the model:
they make the parse fail rather than succeed differently). -/
def escChar : Char → Option Char
  | '"' => some '"'
  | '\\' => some '\\'
  | '/' => some '/'
  | 'b' => some '\x08'
  | 'f' => some '\x0c'
  | 'n' => some '\n'
  | 'r' => some '\x0d'
  | 't' => some '\t'
  | _ => none

/-- Parse the body of a JSON string after the opening quote; returns the
decoded string and the remaining input after the closing quote. -/
def parseStringBody : List Char → Option (String × List Char)
  | [] => none
  | c :: rest =>
    if c = '"' then some ("", rest)
    else if c = '\\' then
      match rest with
      | e :: rest2 =>
        match escChar e with
        | some ec => (parseStringBody rest2).map (fun p => (String.mk (ec :: p.1.data), p.2))
        | none => none
      | [] => none
    else (parseStringBody rest).map (fun p => (String.mk (c :: p.1.data), p.2))

/-- Numeric value of an ASCII digit. -/
def digitVal (c : Char) : Option Nat :=
  if c.isDigit then some (c.toNat - 48) else none

/-- Parse one or more ASCII digits into a natural number. -/
def parseNatNum (s : List Char) : Option (Nat × List Char) :=
  let ds := s.takeWhile Char.isDigit
  if ds.isEmpty then none
  else some (ds.foldl (fun acc c => 10 * acc + (c.toNat - 48)) 0, s.dropWhile Char.isDigit)

/-- Parse a JSON number (modelled as an optionally negated integer). -/
def parseNumber (s : List Char) : Option (Int × List Char) :=
  match s with
  | '-' :: rest => (parseNatNum rest).map (fun p => (-(p.1 : Int), p.2))
  | _ => (parseNatNum s).map (fun p => ((p.1 : Int), p.2))

mutual

/-- Fuel-indexed JSON value parser (the recursive core of `json.loads`). -/
def parseVal : Nat → List Char → Option (JsonVal × List Char)
  | 0, _ => none
  | Nat.succ f, s =>
    match skipWs s with
    | '"' :: rest => (parseStringBody rest).map (fun p => (JsonVal.str p.1, p.2))
    | 't' :: 'r' :: 'u' :: 'e' :: rest => some (JsonVal.bool true, rest)
    | 'f' :: 'a' :: 'l' :: 's' :: 'e' :: rest => some (JsonVal.bool false, rest)
    | 'n' :: 'u' :: 'l' :: 'l' :: rest => some (JsonVal.null, rest)
    | '[' :: rest =>
      match skipWs rest with
      | ']' :: rest2 => some (JsonVal.arr [], rest2)
      | _ => (parseElems f rest).map (fun p => (JsonVal.arr p.1, p.2))
    | '\x7b' :: rest =>
      match skipWs rest with
      | '\x7d' :: rest2 => some (JsonVal.obj [], rest2)
      | _ => (parseMembers f rest).map (fun p => (JsonVal.obj p.1, p.2))
    | other => (parseNumber other).map (fun p => (JsonVal.num p.1, p.2))

/-- Fuel-indexed parser for the non-empty element list of a JSON array. -/
def parseElems : Nat → List Char → Option (List JsonVal × List Char)
  | 0, _ => none
  | Nat.succ f, s => do
    let (v, r1) ← parseVal f s
    match skipWs r1 with
    | ',' :: r2 => (parseElems f r2).map (fun p => (v :: p.1, p.2))
    | ']' :: r2 => some ([v], r2)
    | _ => none

/-- Fuel-indexed parser for the non-empty member list of a JSON object. -/
def parseMembers : Nat → List Char → Option (List (String × JsonVal) × List Char)
  | 0, _ => none
  | Nat.succ f, s =>
    match skipWs s with
    | '"' :: rest => do
      let (k, r1) ← parseStringBody rest
      match skipWs r1 with
      | ':' :: r2 => do
        let (v, r3) ← parseVal f r2
        match skipWs r3 with
        | ',' :: r4 => (parseMembers f r4).map (fun p => ((k, v) :: p.1, p.2))
        | '\x7d' :: r4 => some ([(k, v)], r4)
        | _ => none
      | _ => none
    | _ => none

end

/-- Model of `json.loads`: parse one JSON value and require that only
whitespace remains. -/
def jsonLoads (text : String) : Option JsonVal :=
  match parseVal (text.length + 1) text.data with
  | some (v, rest) => if (skipWs rest).isEmpty then some v else none
  | none => none

-- ## Modelled fenced-block search (the regex at `app.py:64`)

/-- The characters the regex must see at a candidate match start:
three backticks, `json`, a newline and an opening brace. -/
def fenceOpen : List Char := "```json\n\x7b".data

/-- The terminator the lazy group stops at: closing brace, newline,
three backticks. -/
def fenceClose : List Char := "\x7d\n```".data

/-- Lazy body of the fenced group: the shortest prefix of the input after
which `fenceClose` occurs, mirroring the non-greedy `.*?` of the pattern. -/
def lazyBody : List Char → Option (List Char)
  | [] => none
  | c :: rest =>
    if fenceClose.isPrefixOf (c :: rest) then some []
    else (lazyBody rest).map (fun l => c :: l)

/-- Model of the `re.search` call at `app.py:64` with the DOTALL pattern
(backtick fence, the word json, a newline, then the lazy brace group):
returns the captured group of the leftmost match, if any. -/
def fenceSearch : List Char → Option (List Char)
  | [] => none
  | c :: rest =>
    if fenceOpen.isPrefixOf (c :: rest) then
      match lazyBody ((c :: rest).drop fenceOpen.length) with
      | some inner => some ('\x7b' :: inner ++ ['\x7d'])
      | none => fenceSearch rest
    else fenceSearch rest

/-- The two-stage response parsing of `get_gemini_response` (`app.py:64-69`):
parse a fenced `json` block if one is found, otherwise the whole text;
`none` models the `return None` taken when JSON decoding fails. -/
def extractJson (text : String) : Option JsonVal :=
  match fenceSearch text.data with
  | some g => jsonLoads (String.mk g)
  | none => jsonLoads text

-- ## Modelled `dateutil.parser.parse`

/-- Two ASCII digits as a number. -/
def num2 (a b : Char) : Option Nat := do
  let x ← digitVal a
  let y ← digitVal b
  some (10 * x + y)

/-- Four ASCII digits as a number. -/
def num4 (a b c d : Char) : Option Nat := do
  let x ← num2 a b
  let y ← num2 c d
  some (100 * x + y)

/-- Is the year a leap year (Gregorian rule)? -/
def isLeap (y : Nat) : Bool := (y % 4 = 0 && y % 100 != 0) || y % 400 = 0

/-- Number of days in a month, as the `datetime` constructor validates. -/
def daysInMonth (y m : Nat) : Nat :=
  if m = 2 then (if isLeap y then 29 else 28)
  else if m = 4 ∨ m = 6 ∨ m = 9 ∨ m = 11 then 30
  else 31

/-- Modelled from the spec: the permissive date/time parser
(`dateutil.parser.parse`, third-party code not under `src/`) restricted to
the full ISO-8601 form `YYYY-MM-DDTHH:MM:SS` the prompt mandates; other
strings are unparseable (`none`), as are strings naming impossible
calendar dates, which the underlying `datetime` constructor rejects. -/
def parseIso (s : String) : Option DateTime :=
  match s.data with
  | [y1, y2, y3, y4, '-', m1, m2, '-', d1, d2, 'T', p1, p2, ':', q1, q2, ':', r1, r2] => do
    let y ← num4 y1 y2 y3 y4
    let mo ← num2 m1 m2
    let d ← num2 d1 d2
    let h ← num2 p1 p2
    let mi ← num2 q1 q2
    let sec ← num2 r1 r2
    if 1 ≤ y ∧ 1 ≤ mo ∧ mo ≤ 12 ∧ 1 ≤ d ∧ d ≤ daysInMonth y mo ∧
        h < 24 ∧ mi < 60 ∧ sec < 60 then
      some ⟨y, mo, d, h, mi, sec⟩
    else none
  | _ => none

/-- Modelled from the spec: `dateutil.parser.parse` as called at
`app.py:99-100`.  Per the library contract it raises `ValueError` on an
unparseable string and `TypeError` on a non-string argument. -/
def dateutil_parse (v : JsonVal) : Except PyExc DateTime :=
  match v with
  | JsonVal.str s =>
    match parseIso s with
    | some t => Except.ok t
    | none => Except.error PyExc.valueError
  | _ => Except.error PyExc.typeError

-- ## `create_ics_file` (`app.py:80-107`)

/-- The event record built by `create_ics_file`: the `name`, `location`
and `description` attributes hold whatever JSON value `.get` returned;
`beginTime`/`endTime` model `e.begin`/`e.end`. -/
structure IcsEvent where
  name : JsonVal
  location : JsonVal
  description : JsonVal
  beginTime : DateTime
  endTime : DateTime

/-- Python `d[k]` on the extracted-fields dict: `KeyError` when absent. -/
def getItem (d : List (String × JsonVal)) (k : String) : Except PyExc JsonVal :=
  match d.lookup k with
  | some v => Except.ok v
  | none => Except.error PyExc.keyError

/-- The body of the `try` block at `app.py:97-100`: look up and parse
`start_time`, then `end_time`; the first exception propagates. -/
def tryDates (d : List (String × JsonVal)) : Except PyExc (DateTime × DateTime) :=
  match getItem d "start_time" with
  | Except.error e => Except.error e
  | Except.ok sv =>
    match dateutil_parse sv with
    | Except.error e => Except.error e
    | Except.ok b =>
      match getItem d "end_time" with
      | Except.error e => Except.error e
      | Except.ok ev =>
        match dateutil_parse ev with
        | Except.error e => Except.error e
        | Except.ok e2 => Except.ok (b, e2)

/-- Function `create_ics_file` (`app.py:80-107`): defaults for the three
string fields via `.get`, then the date `try` block.  The handler
`except (ValueError, KeyError) as e` at line 101 rebinds the name `e` —
until then the Event — to the exception object: the warning at line 102
is shown, lines 103-104 set begin/end on the exception, and on leaving
the handler Python deletes the bound name, so `c.events.add(e)` at
line 106 raises `UnboundLocalError`.  Hence the fallback path never
returns an event.  Any other exception from the `try` — notably the
`TypeError` from a non-string timestamp — propagates directly.  The
returned flag records whether the warning was shown before the outcome.
(Attribute stores on the event are modelled as plain stores; setter
checks inside the third-party ics library are outside the model.) -/
def create_ics_file (event_data : List (String × JsonVal)) :
    Bool × Except PyExc IcsEvent :=
  let name := (event_data.lookup "title").getD (JsonVal.str "Untitled Event")
  let loc := (event_data.lookup "location").getD (JsonVal.str "Not specified")
  let desc := (event_data.lookup "description").getD (JsonVal.str "No description provided.")
  match tryDates event_data with
  | Except.ok (b, e2) => (false, Except.ok ⟨name, loc, desc, b, e2⟩)
  | Except.error PyExc.valueError => (true, Except.error PyExc.unboundLocalError)
  | Except.error PyExc.keyError => (true, Except.error PyExc.unboundLocalError)
  | Except.error exc => (false, Except.error exc)

-- ## `slugify` (`app.py:109-115`)

/-- The regex class `\w` (word characters): ASCII alphanumerics and the
underscore, extended with the one non-ASCII word character the claims
exercise, U+0130 (LATIN CAPITAL LETTER I WITH DOT ABOVE).  The real
Unicode-aware class matches every alphabetic character — and notably
rejects the combining mark U+0307 — so the model agrees with the source
on ASCII input and on the U+0130 inputs used below. -/
def pyWordChar (c : Char) : Bool := c.isAlphanum || c = '_' || c = Char.ofNat 304

/-- The regex class `\s` (whitespace), at ASCII granularity; also the
characters removed by `str.strip()`. -/
def pySpaceChar (c : Char) : Bool :=
  c = ' ' || c = '\t' || c = '\n' || c = '\x0b' || c = '\x0c' || c = '\x0d'

/-- Characters kept by the first substitution at `app.py:113`, which
deletes every character outside the class of word characters,
whitespace and the hyphen. -/
def keepChar (c : Char) : Bool := pyWordChar c || pySpaceChar c || c = '-'

/-- Model of `str.strip()`: drop leading and trailing whitespace. -/
def pyStrip (l : List Char) : List Char :=
  ((l.dropWhile pySpaceChar).reverse.dropWhile pySpaceChar).reverse

/-- The ASCII uppercase letters. -/
def asciiUppers : List Char :=
  ['A', 'B', 'C', 'D', 'E', 'F', 'G', 'H', 'I', 'J', 'K', 'L', 'M',
   'N', 'O', 'P', 'Q', 'R', 'S', 'T', 'U', 'V', 'W', 'X', 'Y', 'Z']

/-- Single-character part of `str.lower()`: shift an ASCII uppercase
letter down by 32 code points, leave anything else unchanged. -/
def pyLowerChar (c : Char) : Char :=
  if c ∈ asciiUppers then Char.ofNat (c.toNat + 32) else c

/-- Lowercasing of one character as a string, as `str.lower()` performs
it: ASCII case shifting, plus the one unconditional multi-character
special casing in Unicode — U+0130 lowers to the two-character sequence
i, U+0307 (COMBINING DOT ABOVE).  Other non-ASCII lowerings are outside
the model (they are single characters that stay in their classes). -/
def pyLowerMulti (c : Char) : List Char :=
  if c = Char.ofNat 304 then ['i', Char.ofNat 775] else [pyLowerChar c]

/-- Model of `str.lower()` on a string. -/
def pyLowerStr (l : List Char) : List Char := l.flatMap pyLowerMulti

/-- The regex class `[-\s]` collapsed by the second substitution. -/
def dashSpace (c : Char) : Bool := c = '-' || pySpaceChar c

/-- Model of the substitution at `app.py:114`: replace each maximal run of hyphens
and whitespace by one hyphen.  The flag records being inside a run. -/
def collapseAux : Bool → List Char → List Char
  | _, [] => []
  | run, c :: rest =>
    if dashSpace c then
      if run then collapseAux true rest
      else '-' :: collapseAux true rest
    else c :: collapseAux false rest

/-- Body of `slugify` (`app.py:109-115`) on a character list: remove characters
outside `[\w\s-]`, strip, lowercase, collapse hyphen/whitespace runs. -/
def slugifyL (l : List Char) : List Char :=
  collapseAux false (pyLowerStr (pyStrip (l.filter keepChar)))

/-- Function `slugify` (`app.py:109-115`). -/
def slugify (text : String) : String := String.mk (slugifyL text.data)

-- ## Character classes used to state the slugify claims

/-- Is `c` an uppercase character? -/
def isUpperChar (c : Char) : Bool := decide (c ∈ asciiUppers)

/-- The punctuation characters, as listed by the Python constant
`string.punctuation` (codes 39 and 96 are the apostrophe and the
backtick). -/
def punctChars : List Char :=
  ['!', '"', '#', '$', '%', '&', Char.ofNat 39, '(', ')', '*', '+', ',',
   '-', '.', '/', ':', ';', '<', '=', '>', '?', '@', '[', '\\', ']',
   '^', '_', Char.ofNat 96, '\x7b', '|', '\x7d', '~']

/-- Is `c` a punctuation character? -/
def isPunctChar (c : Char) : Bool := decide (c ∈ punctChars)

/-- Property claim C3 asserts of one output character: not whitespace,
not uppercase, and punctuation only if it is the hyphen. -/
def slugCharStrict (c : Char) : Bool :=
  !pySpaceChar c && !isUpperChar c && (!isPunctChar c || c = '-')

/-- The amended per-character property: the underscore, kept by the
class `\w`, may also survive. -/
def slugCharAmended (c : Char) : Bool :=
  !pySpaceChar c && !isUpperChar c && (!isPunctChar c || c = '-' || c = '_')

-- ## Download filename (`app.py:191`)

/-- The download filename built at `app.py:191`: the slug of the title
field (with the default string "event" when the key is absent), then the
extension .ics.  `re.sub` inside `slugify` raises `TypeError` on a
non-string title. -/
def fileName (event_data : List (String × JsonVal)) : Except PyExc String :=
  match (event_data.lookup "title").getD (JsonVal.str "event") with
  | JsonVal.str s => Except.ok (slugify s ++ ".ics")
  | _ => Except.error PyExc.typeError

-- ## Calendar Encoder (spec §4.5)

/-- CanonicalEvent of the spec (§3): fully-defaulted string fields plus
resolved timestamps.  Field `stop` models the end timestamp, because
`end` is a reserved word. -/
structure CanonicalEvent where
  title : String
  location : String
  description : String
  start : DateTime
  stop : DateTime

/-- Zero-pad a number to two digits. -/
def pad2 (n : Nat) : String := if n < 10 then "0" ++ toString n else toString n

/-- Zero-pad a number to four digits. -/
def pad4 (n : Nat) : String :=
  if n < 10 then "000" ++ toString n
  else if n < 100 then "00" ++ toString n
  else if n < 1000 then "0" ++ toString n
  else toString n

/-- An iCalendar timestamp. -/
def fmtStamp (t : DateTime) : String :=
  pad4 t.year ++ pad2 t.month ++ pad2 t.day ++ "T" ++
  pad2 t.hour ++ pad2 t.minute ++ pad2 t.second

/-- Modelled from the spec: the iCalendar serialization done by `str(c)`
is the third-party `ics` library, not under `src/`; per §4.5 the encoder
produces the VCALENDAR document wrapping one VEVENT whose components are
the five fields of the event. -/
def encodeCalendar (e : CanonicalEvent) : String :=
  "BEGIN:VCALENDAR\nVERSION:2.0\nBEGIN:VEVENT\nSUMMARY:" ++ e.title ++
  "\nDTSTART:" ++ fmtStamp e.start ++ "\nDTEND:" ++ fmtStamp e.stop ++
  "\nLOCATION:" ++ e.location ++ "\nDESCRIPTION:" ++ e.description ++
  "\nEND:VEVENT\nEND:VCALENDAR\n"

-- ## Orchestrator (`app.py:132-206`)

/-- What the loop body reports for one file. -/
inductive Report where
  | decodeFailed
  | extractFailed
  | success (fname : String)
  | icsFailed
deriving DecidableEq

/-- The per-file behaviour of the external world: whether the PDF/image
decoding at `app.py:141-163` succeeds, and the outcome of the
`model.generate_content` call (raised exception, or response text). -/
structure FileEnv where
  decodeOk : Bool
  modelResp : Except Unit String

/-- Function `get_gemini_response` (`app.py:34-77`): an exception from the model
call is caught by the final `except Exception` and yields `None`; JSON
decode failures are caught and yield `None`; otherwise the two-stage
recovery runs on the response text. -/
def get_gemini_response (resp : Except Unit String) : Option JsonVal :=
  match resp with
  | Except.error _ => none
  | Except.ok text => extractJson text

/-- The `try` at `app.py:189-201`: build the calendar file, then the
filename; `except Exception` turns any failure — including the
`UnboundLocalError` that `create_ics_file` raises on the date-fallback
path — into an error message (no download emitted). -/
def icsSection (kvs : List (String × JsonVal)) : Report :=
  match (create_ics_file kvs).2 with
  | Except.error _ => Report.icsFailed
  | Except.ok _ =>
    match fileName kvs with
    | Except.error _ => Report.icsFailed
    | Except.ok fn => Report.success fn

/-- Lines 170-204: `if event_data:` (Python truthiness); on a truthy
dict, the display `.get` calls succeed and the download section runs;
on a truthy non-dict, `event_data.get("title", ...)` at line 177 raises
an uncaught `AttributeError`; falsy values reach the `else` report. -/
def processEventData (ed : JsonVal) : Except PyExc Report :=
  if pyTruthy ed then
    match ed with
    | JsonVal.obj kvs => Except.ok (icsSection kvs)
    | _ => Except.error PyExc.attributeError
  else Except.ok Report.extractFailed

/-- The body of the batch loop for one uploaded file: decode failures
are caught and skip the file (`continue`); then extraction and the
event-data section. -/
def processFile (env : FileEnv) : Except PyExc Report :=
  if env.decodeOk then
    match get_gemini_response env.modelResp with
    | none => Except.ok Report.extractFailed
    | some ed => processEventData ed
  else Except.ok Report.decodeFailed

/-- The `for uploaded_file in uploaded_files:` loop: an exception escaping
one iteration aborts the whole loop (no further files processed). -/
def processBatch : List FileEnv → Except PyExc (List Report)
  | [] => Except.ok []
  | env :: rest => do
    let r ← processFile env
    let rs ← processBatch rest
    Except.ok (r :: rs)

/-- A file is safe when its model response, if it parses to a truthy
JSON value at all, parses to an object. -/
def safeEnv (env : FileEnv) : Bool :=
  match get_gemini_response env.modelResp with
  | some ed => !pyTruthy ed || ed.isObj
  | none => true

-- ## Concrete inputs used by the claims

/-- The fenced Gala model response given in §8 of the spec. -/
def galaFenced : String :=
  "```json\n\x7b\"title\":\"Gala\",\"start_time\":\"2024-08-15T19:00:00\",\"end_time\":\"2024-08-15T21:00:00\",\"location\":\"Hall A\",\"description\":\"Fundraiser\"\x7d\n```"

/-- The same Gala JSON object bare, as the entire response text. -/
def galaBare : String :=
  "\x7b\"title\":\"Gala\",\"start_time\":\"2024-08-15T19:00:00\",\"end_time\":\"2024-08-15T21:00:00\",\"location\":\"Hall A\",\"description\":\"Fundraiser\"\x7d"

/-- The extracted fields of the Gala response. -/
def galaKvs : List (String × JsonVal) :=
  [("title", JsonVal.str "Gala"),
   ("start_time", JsonVal.str "2024-08-15T19:00:00"),
   ("end_time", JsonVal.str "2024-08-15T21:00:00"),
   ("location", JsonVal.str "Hall A"),
   ("description", JsonVal.str "Fundraiser")]

/-- Fields whose key `k` is missing, or bound to a string the permissive
date parser rejects (the failure cases of the date `try` block that the
`except` clause catches). -/
def missingOrBad (d : List (String × JsonVal)) (k : String) : Prop :=
  d.lookup k = none ∨ ∃ s, d.lookup k = some (JsonVal.str s) ∧ parseIso s = none

/-- Characterizes the strings fixed by the run-collapsing substitution:
no whitespace, and no hyphen directly after a hyphen (the flag records
that the previous character was a hyphen). -/
def canonAfter : Bool → List Char → Bool
  | _, [] => true
  | afterDash, c :: rest =>
    if c = '-' then !afterDash && canonAfter true rest
    else !pySpaceChar c && canonAfter false rest

/-- Extracted fields holding only parseable timestamps (no title,
location or description key). -/
def dDatesOnly : List (String × JsonVal) :=
  [("start_time", JsonVal.str "2024-08-15T19:00:00"),
   ("end_time", JsonVal.str "2024-08-15T21:00:00")]

/-- The event produced from `dDatesOnly`: every string field defaulted,
the timestamps as parsed. -/
def evParsedDefaults : IcsEvent :=
  ⟨JsonVal.str "Untitled Event", JsonVal.str "Not specified",
   JsonVal.str "No description provided.",
   ⟨2024, 8, 15, 19, 0, 0⟩, ⟨2024, 8, 15, 21, 0, 0⟩⟩

/-- Extracted fields binding location and description to the empty
string, with parseable timestamps. -/
def dEmptyLocDates : List (String × JsonVal) :=
  [("location", JsonVal.str ""), ("description", JsonVal.str ""),
   ("start_time", JsonVal.str "2024-08-15T19:00:00"),
   ("end_time", JsonVal.str "2024-08-15T21:00:00")]

/-- The event produced from `dEmptyLocDates`. -/
def evEmptyLocParsed : IcsEvent :=
  ⟨JsonVal.str "Untitled Event", JsonVal.str "", JsonVal.str "",
   ⟨2024, 8, 15, 19, 0, 0⟩, ⟨2024, 8, 15, 21, 0, 0⟩⟩

/-- Extracted fields holding a title and parseable timestamps. -/
def dGalaNight : List (String × JsonVal) :=
  [("title", JsonVal.str "Gala Night"),
   ("start_time", JsonVal.str "2024-08-15T19:00:00"),
   ("end_time", JsonVal.str "2024-08-15T21:00:00")]

/-- The event produced from `dGalaNight`. -/
def evGalaNightParsed : IcsEvent :=
  ⟨JsonVal.str "Gala Night", JsonVal.str "Not specified",
   JsonVal.str "No description provided.",
   ⟨2024, 8, 15, 19, 0, 0⟩, ⟨2024, 8, 15, 21, 0, 0⟩⟩

/-- The one-character string U+0130 (LATIN CAPITAL LETTER I WITH DOT
ABOVE), whose lowercasing is the two-character sequence i, U+0307. -/
def dottedI : String := String.mk [Char.ofNat 304]

/-- A file whose model response is the text `true`: valid JSON, truthy,
not an object. -/
def envTruthyNonObj : FileEnv := ⟨true, Except.ok "true"⟩

/-- A file whose model response is the fenced Gala JSON. -/
def envGala : FileEnv := ⟨true, Except.ok galaFenced⟩

-- ## Helper lemmas about `tryDates` and the batch loop

/-- When the timestamp values present are strings, the date block can
only raise the two exceptions the `except` clause catches. -/
theorem tryDates_errors (d : List (String × JsonVal))
    (hs : ∀ v, d.lookup "start_time" = some v → v.isStr = true)
    (he : ∀ v, d.lookup "end_time" = some v → v.isStr = true) :
    ∀ exc, tryDates d = Except.error exc → exc = PyExc.valueError ∨ exc = PyExc.keyError := by
  intro exc h
  unfold tryDates getItem at h
  cases hls : d.lookup "start_time" with
  | none =>
    simp only [hls] at h
    cases h
    right
    rfl
  | some v =>
    have hv := hs v hls
    cases v <;> simp [JsonVal.isStr] at hv
    rename_i s
    simp only [hls, dateutil_parse] at h
    cases hp : parseIso s with
    | none =>
      simp only [hp] at h
      cases h
      left
      rfl
    | some t =>
      simp only [hp] at h
      cases hle : d.lookup "end_time" with
      | none =>
        simp only [hle] at h
        cases h
        right
        rfl
      | some w =>
        have hw := he w hle
        cases w <;> simp [JsonVal.isStr] at hw
        rename_i s2
        simp only [hle, dateutil_parse] at h
        cases hp2 : parseIso s2 with
        | none =>
          simp only [hp2] at h
          cases h
          left
          rfl
        | some t2 =>
          simp only [hp2] at h
          simp at h

/-- When a timestamp key is missing or bound to an unparseable string,
the date block raises one of the two caught exceptions. -/
theorem tryDates_fails (d : List (String × JsonVal))
    (hs : ∀ v, d.lookup "start_time" = some v → v.isStr = true)
    (he : ∀ v, d.lookup "end_time" = some v → v.isStr = true)
    (hfail : missingOrBad d "start_time" ∨ missingOrBad d "end_time") :
    tryDates d = Except.error PyExc.valueError ∨ tryDates d = Except.error PyExc.keyError := by
  unfold tryDates getItem
  rcases hfail with hmb | hmb
  · rcases hmb with hnone | ⟨s, hsome, hbad⟩
    · rw [hnone]; right; rfl
    · rw [hsome]; simp [dateutil_parse, hbad]
  · cases hls : d.lookup "start_time" with
    | none => right; rfl
    | some v =>
      have hv := hs v hls
      cases v <;> simp [JsonVal.isStr] at hv
      rename_i s
      simp only [dateutil_parse]
      cases hp : parseIso s with
      | none => left; rfl
      | some t =>
        rcases hmb with hnone | ⟨s2, hsome, hbad⟩
        · rw [hnone]; right; rfl
        · rw [hsome]; simp [dateutil_parse, hbad]

/-- When both timestamps are present as parseable strings, the date
block succeeds with the parsed pair. -/
theorem tryDates_ok (d : List (String × JsonVal)) (s t : String) (b e2 : DateTime)
    (hls : d.lookup "start_time" = some (JsonVal.str s)) (hps : parseIso s = some b)
    (hle : d.lookup "end_time" = some (JsonVal.str t)) (hpe : parseIso t = some e2) :
    tryDates d = Except.ok (b, e2) := by
  unfold tryDates getItem
  rw [hls, hle]
  simp [dateutil_parse, hps, hpe]

/-- The loop body cannot raise for a file whose model response does not
parse to a truthy non-object JSON value. -/
theorem processFile_total (env : FileEnv)
    (hsafe : safeEnv env = true) : ∃ r, processFile env = Except.ok r := by
  obtain ⟨dec, resp⟩ := env
  unfold safeEnv at hsafe
  unfold processFile
  cases dec with
  | false => exact ⟨_, rfl⟩
  | true =>
    cases hg : get_gemini_response resp with
    | none => exact ⟨_, rfl⟩
    | some ed =>
      rw [hg] at hsafe
      have hsafe2 : (!pyTruthy ed || ed.isObj) = true := hsafe
      show ∃ r, processEventData ed = Except.ok r
      unfold processEventData
      cases htr : pyTruthy ed with
      | false => exact ⟨_, rfl⟩
      | true =>
        rw [htr] at hsafe2
        simp only [Bool.not_true, Bool.false_or] at hsafe2
        cases ed <;> simp [JsonVal.isObj] at hsafe2
        exact ⟨_, rfl⟩

-- ## Helper lemmas about `slugify`

/-- Lowercasing fixes a character that is not an uppercase letter. -/
theorem pyLowerChar_fix (c : Char) (h : c ∉ asciiUppers) : pyLowerChar c = c :=
  if_neg h

/-- Lowercasing preserves the kept character class. -/
theorem keepChar_pyLowerChar (c : Char) (h : keepChar c = true) :
    keepChar (pyLowerChar c) = true := by
  by_cases hu : c ∈ asciiUppers
  · fin_cases hu <;> decide
  · rw [pyLowerChar_fix c hu]; exact h

/-- Alphanumeric characters are not punctuation. -/
theorem alphanum_not_punct (c : Char) (hal : c.isAlphanum = true) :
    isPunctChar c = false := by
  cases hp : isPunctChar c with
  | false => rfl
  | true =>
    have hmem : c ∈ punctChars := of_decide_eq_true hp
    fin_cases hmem <;> exact absurd hal (by decide)

/-- A kept character, once lowercased and not a hyphen or whitespace,
satisfies the amended per-character property. -/
theorem out_char_amended (a : Char) (hk : keepChar a = true)
    (hd : dashSpace (pyLowerChar a) = false) :
    slugCharAmended (pyLowerChar a) = true := by
  by_cases hu : a ∈ asciiUppers
  · fin_cases hu <;> decide
  · rw [pyLowerChar_fix a hu] at hd ⊢
    simp only [dashSpace, Bool.or_eq_false_iff, decide_eq_false_iff_not] at hd
    obtain ⟨hdash, hspace⟩ := hd
    simp only [keepChar, Bool.or_eq_true] at hk
    rcases hk with (hw | hs) | hh
    · simp only [pyWordChar, Bool.or_eq_true] at hw
      rcases hw with (hal | hund) | hdot
      · simp only [slugCharAmended, hspace, isUpperChar, decide_eq_false hu,
          alphanum_not_punct a hal]
        rfl
      · have : a = '_' := by simpa using hund
        subst this; decide
      · have : a = Char.ofNat 304 := by simpa using hdot
        subst this; decide
    · rw [hs] at hspace; exact absurd hspace (by decide)
    · have : a = '-' := by simpa using hh
      exact absurd this hdash

/-- Every character of the collapsed output is either the substituted
hyphen or a character of the input outside the collapsed class. -/
theorem mem_collapseAux (l : List Char) : ∀ (b : Bool) (c : Char), c ∈ collapseAux b l →
    c = '-' ∨ (c ∈ l ∧ dashSpace c = false) := by
  induction l with
  | nil => intro b c h; simp [collapseAux] at h
  | cons a rest ih =>
    intro b c h
    unfold collapseAux at h
    by_cases hd : dashSpace a = true
    · rw [if_pos hd] at h
      cases b with
      | true =>
        rcases ih true c h with h1 | ⟨h1, h2⟩
        · exact Or.inl h1
        · exact Or.inr ⟨List.mem_cons_of_mem a h1, h2⟩
      | false =>
        rcases List.mem_cons.mp h with h1 | h1
        · exact Or.inl h1
        · rcases ih true c h1 with h2 | ⟨h2, h3⟩
          · exact Or.inl h2
          · exact Or.inr ⟨List.mem_cons_of_mem a h2, h3⟩
    · rw [if_neg hd] at h
      rcases List.mem_cons.mp h with h1 | h1
      · rw [h1]
        exact Or.inr ⟨List.mem_cons_self a rest, by simpa using hd⟩
      · rcases ih false c h1 with h2 | ⟨h2, h3⟩
        · exact Or.inl h2
        · exact Or.inr ⟨List.mem_cons_of_mem a h2, h3⟩

/-- The collapsed output is canonical. -/
theorem collapseAux_canon (l : List Char) : ∀ b : Bool,
    canonAfter b (collapseAux b l) = true := by
  induction l with
  | nil => intro b; rfl
  | cons a rest ih =>
    intro b
    unfold collapseAux
    by_cases hd : dashSpace a = true
    · rw [if_pos hd]
      cases b with
      | true => exact ih true
      | false =>
        show canonAfter false ('-' :: collapseAux true rest) = true
        unfold canonAfter
        rw [if_pos rfl]
        simpa using ih true
    · rw [if_neg hd]
      simp only [dashSpace, Bool.or_eq_true, decide_eq_true_eq, not_or] at hd
      push_neg at hd
      obtain ⟨hdash, hspace⟩ := hd
      show canonAfter b (a :: collapseAux false rest) = true
      unfold canonAfter
      rw [if_neg hdash]
      simp only [Bool.and_eq_true, Bool.not_eq_true']
      exact ⟨by simpa using hspace, ih false⟩

/-- Canonical strings are fixed by the run-collapsing substitution. -/
theorem canon_fix (l : List Char) : ∀ b : Bool, canonAfter b l = true →
    collapseAux b l = l := by
  induction l with
  | nil => intro b _; rfl
  | cons a rest ih =>
    intro b hc
    unfold canonAfter at hc
    by_cases ha : a = '-'
    · rw [if_pos ha] at hc
      simp only [Bool.and_eq_true, Bool.not_eq_true'] at hc
      obtain ⟨hb, hrest⟩ := hc
      subst hb
      subst ha
      show collapseAux false ('-' :: rest) = '-' :: rest
      unfold collapseAux
      rw [if_pos (by decide : dashSpace '-' = true)]
      rw [ih true hrest]
      rfl
    · rw [if_neg ha] at hc
      simp only [Bool.and_eq_true, Bool.not_eq_true'] at hc
      obtain ⟨hspace, hrest⟩ := hc
      unfold collapseAux
      have hd : dashSpace a = false := by
        simp [dashSpace, ha, hspace]
      rw [if_neg (by simp [hd] : ¬dashSpace a = true)]
      rw [ih false hrest]

/-- Stripping only removes characters. -/
theorem pyStrip_mem (l : List Char) (c : Char) (h : c ∈ pyStrip l) : c ∈ l := by
  unfold pyStrip at h
  rw [List.mem_reverse] at h
  have h2 := (List.dropWhile_suffix pySpaceChar).mem h
  rw [List.mem_reverse] at h2
  exact (List.dropWhile_suffix pySpaceChar).mem h2

/-- Every character of a slug is the substituted hyphen, or arose by
lowercasing a kept character of the input, and is itself outside the
collapsed class. -/
theorem slugifyL_mem (l : List Char) (c : Char) (h : c ∈ slugifyL l) :
    c = '-' ∨ (∃ a, a ∈ l ∧ keepChar a = true ∧ c ∈ pyLowerMulti a ∧ dashSpace c = false) := by
  unfold slugifyL at h
  rcases mem_collapseAux _ false c h with h1 | ⟨h1, h2⟩
  · exact Or.inl h1
  · unfold pyLowerStr at h1
    rw [List.mem_flatMap] at h1
    obtain ⟨a, ha, hc⟩ := h1
    have hmem := pyStrip_mem _ a ha
    rw [List.mem_filter] at hmem
    exact Or.inr ⟨a, hmem.1, hmem.2, hc, h2⟩

/-- A list none of whose characters satisfy the predicate is fixed by
`dropWhile`. -/
theorem dropWhile_eq_self_of (p : Char → Bool) (l : List Char)
    (h : ∀ c ∈ l, p c = false) : l.dropWhile p = l := by
  cases l with
  | nil => rfl
  | cons a rest =>
    rw [List.dropWhile_cons]
    rw [h a (List.mem_cons_self a rest)]
    simp

/-- A list each of whose characters lowercases to itself alone is fixed
by the string-level lowercasing. -/
theorem pyLowerStr_eq_self_of (l : List Char)
    (h : ∀ c ∈ l, pyLowerMulti c = [c]) : pyLowerStr l = l := by
  induction l with
  | nil => rfl
  | cons a rest ih =>
    show pyLowerMulti a ++ pyLowerStr rest = a :: rest
    rw [h a (List.mem_cons_self a rest),
      ih (fun c hc => h c (List.mem_cons_of_mem a hc))]
    rfl

/-- Characters of a slug of a U+0130-free string are kept,
non-whitespace, and fixed by lowercasing. -/
theorem slugifyL_chars (l : List Char) (hfree : Char.ofNat 304 ∉ l) (c : Char)
    (h : c ∈ slugifyL l) :
    keepChar c = true ∧ pySpaceChar c = false ∧ pyLowerMulti c = [c] := by
  rcases slugifyL_mem l c h with h1 | ⟨a, hal, hk, hcm, hd⟩
  · subst h1
    exact ⟨by decide, by decide, by decide⟩
  · have hane : a ≠ Char.ofNat 304 := fun hcontra => hfree (hcontra ▸ hal)
    rw [show pyLowerMulti a = [pyLowerChar a] from if_neg hane] at hcm
    rw [List.mem_singleton] at hcm
    subst hcm
    refine ⟨keepChar_pyLowerChar a hk, ?_, ?_⟩
    · simp only [dashSpace, Bool.or_eq_false_iff] at hd
      exact hd.2
    · by_cases hu : a ∈ asciiUppers
      · fin_cases hu <;> decide
      · have hfix := pyLowerChar_fix a hu
        rw [hfix]
        have hone : pyLowerMulti a = [pyLowerChar a] := if_neg hane
        rw [hfix] at hone
        exact hone

/-- Slugs of U+0130-free strings are fixed points of the slug
computation. -/
theorem slugifyL_idem_of (l : List Char) (hfree : Char.ofNat 304 ∉ l) :
    slugifyL (slugifyL l) = slugifyL l := by
  have hkeep : (slugifyL l).filter keepChar = slugifyL l :=
    List.filter_eq_self.mpr (fun c hc => (slugifyL_chars l hfree c hc).1)
  have hnospace : ∀ c ∈ slugifyL l, pySpaceChar c = false :=
    fun c hc => (slugifyL_chars l hfree c hc).2.1
  have hstrip : pyStrip (slugifyL l) = slugifyL l := by
    unfold pyStrip
    rw [dropWhile_eq_self_of _ _ hnospace]
    rw [dropWhile_eq_self_of _ _ (fun c hc => hnospace c (List.mem_reverse.mp hc))]
    exact List.reverse_reverse _
  have hlower : pyLowerStr (slugifyL l) = slugifyL l :=
    pyLowerStr_eq_self_of _ (fun c hc => (slugifyL_chars l hfree c hc).2.2)
  have hcanon : collapseAux false (slugifyL l) = slugifyL l :=
    canon_fix _ false (collapseAux_canon _ false)
  show collapseAux false (pyLowerStr (pyStrip ((slugifyL l).filter keepChar))) = slugifyL l
  rw [hkeep, hstrip, hlower, hcanon]

-- ## The claims

/-- Claim C1, counterexample: the Field Normalizer can fail.  With a
timestamp bound to the non-string JSON null, the date parser raises an
uncaught `TypeError`; and with the timestamps simply missing, the
fallback path warns and then raises `UnboundLocalError` at
`c.events.add(e)` (`app.py:106`), because the except clause rebound the
name `e` to the exception and deleted it on exit. -/
theorem claim_C1_counterexample :
    create_ics_file [("start_time", JsonVal.null)] = (false, Except.error PyExc.typeError) ∧
    create_ics_file [] = (true, Except.error PyExc.unboundLocalError) :=
  ⟨rfl, rfl⟩

/-- Claim C1, amended: for string-typed extracted fields, normalization
returns a CanonicalEvent exactly when both timestamps are present and
parseable; when either is missing or unparseable it surfaces the
warning and then raises `UnboundLocalError` instead of defaulting.
(A non-string timestamp value raises `TypeError`.) -/
theorem claim_C1_amended (d : List (String × JsonVal))
    (hs : ∀ v, d.lookup "start_time" = some v → v.isStr = true)
    (he : ∀ v, d.lookup "end_time" = some v → v.isStr = true) :
    ((∃ ev warned, create_ics_file d = (warned, Except.ok ev)) ↔
      ¬(missingOrBad d "start_time" ∨ missingOrBad d "end_time")) ∧
    ((missingOrBad d "start_time" ∨ missingOrBad d "end_time") →
      create_ics_file d = (true, Except.error PyExc.unboundLocalError)) := by
  have hfailCase : (missingOrBad d "start_time" ∨ missingOrBad d "end_time") →
      create_ics_file d = (true, Except.error PyExc.unboundLocalError) := by
    intro hbad
    unfold create_ics_file
    rcases tryDates_fails d hs he hbad with h | h <;> rw [h]
  refine ⟨⟨?_, ?_⟩, hfailCase⟩
  · rintro ⟨ev, warned, hok⟩ hbad
    rw [hfailCase hbad] at hok
    simp at hok
  · intro hnot
    push_neg at hnot
    obtain ⟨hns, hne⟩ := hnot
    unfold missingOrBad at hns hne
    push_neg at hns hne
    obtain ⟨hs1, hs2⟩ := hns
    obtain ⟨he1, he2⟩ := hne
    cases hls : d.lookup "start_time" with
    | none => exact absurd hls hs1
    | some v =>
      have hv := hs v hls
      cases v <;> simp [JsonVal.isStr] at hv
      rename_i s
      have hps := hs2 s hls
      cases hparse : parseIso s with
      | none => exact absurd hparse hps
      | some b =>
        cases hle : d.lookup "end_time" with
        | none => exact absurd hle he1
        | some w =>
          have hw := he w hle
          cases w <;> simp [JsonVal.isStr] at hw
          rename_i t
          have hpe := he2 t hle
          cases hparse2 : parseIso t with
          | none => exact absurd hparse2 hpe
          | some e2 =>
            exact ⟨_, false, by
              unfold create_ics_file
              rw [tryDates_ok d s t b e2 hls hparse hle hparse2]⟩

/-- Claim C1, witness: the amended theorem at two concrete inputs — the
empty fields (missing start, the warn-then-raise branch) and the fields
with both timestamps parseable (the success branch). -/
theorem claim_C1_amended_witness :
    create_ics_file [] = (true, Except.error PyExc.unboundLocalError) ∧
    (∃ ev warned, create_ics_file dDatesOnly = (warned, Except.ok ev)) := by
  constructor
  · exact (claim_C1_amended [] (fun v h => by simp [List.lookup] at h)
      (fun v h => by simp [List.lookup] at h)).2 (Or.inl (Or.inl rfl))
  · refine (claim_C1_amended dDatesOnly ?_ ?_).1.mpr ?_
    · intro v h
      rw [show List.lookup "start_time" dDatesOnly =
        some (JsonVal.str "2024-08-15T19:00:00") from rfl] at h
      cases h
      rfl
    · intro v h
      rw [show List.lookup "end_time" dDatesOnly =
        some (JsonVal.str "2024-08-15T21:00:00") from rfl] at h
      cases h
      rfl
    · rintro hbad
      rcases hbad with hmb | hmb <;>
        rcases hmb with hnone | ⟨s, hsx, hbad2⟩
      · exact absurd hnone (by simp [dDatesOnly, List.lookup])
      · rw [show List.lookup "start_time" dDatesOnly =
          some (JsonVal.str "2024-08-15T19:00:00") from rfl] at hsx
        cases hsx
        exact absurd hbad2 (by decide)
      · exact absurd hnone (by simp [dDatesOnly, List.lookup])
      · rw [show List.lookup "end_time" dDatesOnly =
          some (JsonVal.str "2024-08-15T21:00:00") from rfl] at hsx
        cases hsx
        exact absurd hbad2 (by decide)

set_option maxRecDepth 40000 in
/-- Claim C2, counterexample: a model response that is valid, truthy,
non-object JSON (here the text `true`) reaches `event_data.get` at
`app.py:177` outside any `try`, raising an uncaught `AttributeError`
that aborts the whole batch: with a second, well-formed flyer queued
behind it, the batch produces no report for that flyer even though it
would have succeeded on its own. -/
theorem claim_C2_counterexample :
    processBatch [envTruthyNonObj, envGala] = Except.error PyExc.attributeError ∧
    processFile envGala = Except.ok (Report.success "gala.ics") :=
  ⟨rfl, rfl⟩

/-- Claim C2, amended: for every batch in which no model response parses
to a truthy non-object JSON value, every recoverable failure (decode
failure, model-call failure, unparseable model output, falsy output,
encoding failure — including the date-fallback `UnboundLocalError`,
which `except Exception` at `app.py:200` confines to its file) is
isolated to its own file: the loop completes with exactly one report
per uploaded file. -/
theorem claim_C2_amended (envs : List FileEnv)
    (hsafe : ∀ env ∈ envs, safeEnv env = true) :
    ∃ reports, processBatch envs = Except.ok reports ∧
      reports.length = envs.length := by
  induction envs with
  | nil => exact ⟨[], rfl, rfl⟩
  | cons env rest ih =>
    obtain ⟨rs, hrs, hlen⟩ := ih (fun e he => hsafe e (List.mem_cons_of_mem _ he))
    obtain ⟨r, hr⟩ := processFile_total env (hsafe env (List.mem_cons_self _ _))
    refine ⟨r :: rs, ?_, by simp [hlen]⟩
    unfold processBatch
    rw [hr, hrs]
    rfl

set_option maxRecDepth 40000 in
/-- Claim C2, witness: the amended theorem applied to the one-file batch
holding the well-formed Gala flyer. -/
theorem claim_C2_amended_witness :
    ∃ reports, processBatch [envGala] = Except.ok reports ∧
      reports.length = [envGala].length :=
  claim_C2_amended [envGala]
    (fun env he => by rw [List.mem_singleton] at he; subst he; rfl)

/-- Claim C3, counterexample: the underscore is kept by the word class
of the first substitution and survives to the output, and it is a
punctuation character other than the hyphen, so the output of
`slugify` is not punctuation-free as claimed. -/
theorem claim_C3_counterexample :
    slugify "a_b" = "a_b" ∧ isPunctChar '_' = true ∧ ('_' = '-') = False ∧
    ((slugify "a_b").data.all slugCharStrict) = false :=
  ⟨rfl, by decide, by simp, by decide⟩

/-- Claim C3, amended: for every input string, the output of `slugify`
contains no whitespace characters, no uppercase characters, and no
punctuation characters other than the hyphen and the underscore. -/
theorem claim_C3_amended (x : String) :
    (slugify x).data.all slugCharAmended = true := by
  rw [List.all_eq_true]
  intro c hc
  rcases slugifyL_mem x.data c hc with h1 | ⟨a, hal, hk, hcm, hd⟩
  · subst h1; decide
  · by_cases ha : a = Char.ofNat 304
    · subst ha
      rw [show pyLowerMulti (Char.ofNat 304) = ['i', Char.ofNat 775] from rfl] at hcm
      rcases List.mem_cons.mp hcm with h | h
      · subst h; decide
      · rw [List.mem_singleton] at h
        subst h; decide
    · rw [show pyLowerMulti a = [pyLowerChar a] from if_neg ha] at hcm
      rw [List.mem_singleton] at hcm
      subst hcm
      exact out_char_amended a hk hd

/-- Claim C4: the Calendar Encoder is deterministic: the encoded
document is a function of the five fields of the CanonicalEvent alone,
so two runs on identical events produce character-for-character
identical text.  (The serialization itself is modelled from §4.5 of the
spec, because it lives in the third-party ics library, outside src.) -/
theorem claim_C4_deterministic (e1 e2 : CanonicalEvent)
    (h1 : e1.title = e2.title) (h2 : e1.location = e2.location)
    (h3 : e1.description = e2.description) (h4 : e1.start = e2.start)
    (h5 : e1.stop = e2.stop) :
    encodeCalendar e1 = encodeCalendar e2 := by
  cases e1; cases e2; simp_all [encodeCalendar]

/-- Claim C4, witness: the determinism theorem applied to two copies of
a concrete event. -/
theorem claim_C4_witness :
    encodeCalendar ⟨"a", "b", "c", epochDT, epochDT⟩ =
      encodeCalendar ⟨"a", "b", "c", epochDT, epochDT⟩ :=
  claim_C4_deterministic ⟨"a", "b", "c", epochDT, epochDT⟩ ⟨"a", "b", "c", epochDT, epochDT⟩
    rfl rfl rfl rfl rfl

/-- Claim C5, counterexample: for a successfully processed flyer whose
fields lack a title key (timestamps parseable, so an event is emitted),
the CanonicalEvent title defaults to "Untitled Event" (`app.py:93`) but
the download filename uses the different default "event" (`app.py:191`):
the file is named event.ics, not the slug untitled-event.ics of the
defaulted title. -/
theorem claim_C5_counterexample :
    create_ics_file dDatesOnly = (false, Except.ok evParsedDefaults) ∧
    evParsedDefaults.name = JsonVal.str "Untitled Event" ∧
    fileName dDatesOnly = Except.ok "event.ics" ∧
    slugify "Untitled Event" ++ ".ics" = "untitled-event.ics" ∧
    "event.ics" ≠ "untitled-event.ics" :=
  ⟨rfl, rfl, rfl, rfl, by decide⟩

/-- Claim C5, amended: the download file is named with the slug of the
title field followed by .ics whenever the title key is present as a
string — in that case it equals the slug of the CanonicalEvent title —
but when the title key is absent the filename falls back to event.ics
while the CanonicalEvent title defaults to "Untitled Event". -/
theorem claim_C5_amended (d : List (String × JsonVal)) (ev : IcsEvent) (w : Bool)
    (h : create_ics_file d = (w, Except.ok ev)) :
    (∀ s, d.lookup "title" = some (JsonVal.str s) →
      fileName d = Except.ok (slugify s ++ ".ics") ∧ ev.name = JsonVal.str s) ∧
    (d.lookup "title" = none →
      fileName d = Except.ok "event.ics" ∧ ev.name = JsonVal.str "Untitled Event") := by
  unfold create_ics_file at h
  constructor
  · intro s hk
    constructor
    · unfold fileName; rw [hk]; rfl
    · rw [hk] at h
      split at h <;>
        first
        | · simp only [Prod.mk.injEq, Except.ok.injEq] at h
            obtain ⟨hw, hev⟩ := h
            subst hev
            rfl
        | simp at h
  · intro hk
    constructor
    · unfold fileName; rw [hk]; rfl
    · rw [hk] at h
      split at h <;>
        first
        | · simp only [Prod.mk.injEq, Except.ok.injEq] at h
            obtain ⟨hw, hev⟩ := h
            subst hev
            rfl
        | simp at h

/-- Claim C5, witness: the amended theorem applied to fields holding the
title "Gala Night" and parseable timestamps, giving the download name
gala-night.ics. -/
theorem claim_C5_amended_witness :
    fileName dGalaNight = Except.ok "gala-night.ics" ∧
    evGalaNightParsed.name = JsonVal.str "Gala Night" := by
  have h := (claim_C5_amended dGalaNight evGalaNightParsed false rfl).1 "Gala Night" rfl
  exact ⟨h.1, h.2⟩

/-- Claim C6, code bug: lines 102-104 plainly intend the spec-mandated
fallback — warn, then set both times to now on the event — but the
handler `except (ValueError, KeyError) as e` rebinds `e` to the
exception, sets begin/end on that exception, and Python deletes the
name on leaving the handler, so `c.events.add(e)` at `app.py:106`
raises `UnboundLocalError`.  Evaluated at an unparseable and at a
missing start_time: the warning flag is set, and an error results
instead of a CanonicalEvent with start/end populated. -/
theorem claim_C6_bug_eval :
    create_ics_file
        [("start_time", JsonVal.str "soon"), ("end_time", JsonVal.str "2024-08-15T21:00:00")] =
      (true, Except.error PyExc.unboundLocalError) ∧
    create_ics_file [] = (true, Except.error PyExc.unboundLocalError) :=
  ⟨rfl, rfl⟩

/-- Claim C7, counterexample: at the empty extracted fields — location
and description both absent, inside the domain the claim quantifies
over — the Field Normalizer yields no CanonicalEvent at all: it warns
and then raises `UnboundLocalError`. -/
theorem claim_C7_counterexample :
    create_ics_file [] = (true, Except.error PyExc.unboundLocalError) := rfl

/-- Claim C7, amended: whenever the Field Normalizer does yield a
CanonicalEvent (both timestamps present and parseable) from fields
lacking the location and description keys, that event has location
exactly "Not specified" and description exactly
"No description provided.". -/
theorem claim_C7_amended (d : List (String × JsonVal)) (ev : IcsEvent) (w : Bool)
    (hl : d.lookup "location" = none) (hd : d.lookup "description" = none)
    (h : create_ics_file d = (w, Except.ok ev)) :
    ev.location = JsonVal.str "Not specified" ∧
    ev.description = JsonVal.str "No description provided." := by
  unfold create_ics_file at h
  rw [hl, hd] at h
  split at h <;>
    first
    | · simp only [Prod.mk.injEq, Except.ok.injEq] at h
        obtain ⟨hw, hev⟩ := h
        subst hev
        exact ⟨rfl, rfl⟩
    | simp at h

/-- Claim C7, witness: the amended theorem applied to fields holding
only parseable timestamps. -/
theorem claim_C7_witness :
    evParsedDefaults.location = JsonVal.str "Not specified" ∧
    evParsedDefaults.description = JsonVal.str "No description provided." :=
  claim_C7_amended dDatesOnly evParsedDefaults false rfl rfl rfl

set_option maxRecDepth 40000 in
/-- Claim C8: response recovery is two-stage — a fenced json block
first, else the entire text as JSON — so the fenced Gala response and
the bare Gala object extract to the same five fields, which normalize
to the title "Gala", start 2024-08-15T19:00:00, end
2024-08-15T21:00:00. -/
theorem claim_C8_two_stage :
    extractJson galaFenced = some (JsonVal.obj galaKvs) ∧
    extractJson galaBare = some (JsonVal.obj galaKvs) ∧
    create_ics_file galaKvs =
      (false, Except.ok ⟨JsonVal.str "Gala", JsonVal.str "Hall A", JsonVal.str "Fundraiser",
        ⟨2024, 8, 15, 19, 0, 0⟩, ⟨2024, 8, 15, 21, 0, 0⟩⟩) :=
  ⟨rfl, rfl, rfl⟩

/-- Claim C9, counterexample: `slugify` is not idempotent over all
strings.  Lowercasing U+0130 yields the two characters i and U+0307
(COMBINING DOT ABOVE); the combining mark survives the first pass, but
it is not a word character, so the second pass deletes it. -/
theorem claim_C9_counterexample :
    slugify dottedI = String.mk ['i', Char.ofNat 775] ∧
    slugify (slugify dottedI) = "i" ∧
    slugify (slugify dottedI) ≠ slugify dottedI :=
  ⟨rfl, rfl, by decide⟩

/-- Claim C9, amended: `slugify` is idempotent on every string not
containing U+0130 (LATIN CAPITAL LETTER I WITH DOT ABOVE), the one
character whose lowercasing is a multi-character sequence. -/
theorem claim_C9_amended (x : String) (hfree : Char.ofNat 304 ∉ x.data) :
    slugify (slugify x) = slugify x := by
  show String.mk (slugifyL (slugifyL x.data)) = String.mk (slugifyL x.data)
  rw [slugifyL_idem_of x.data hfree]

/-- Claim C9, witness: the amended idempotence theorem at a concrete
ASCII title. -/
theorem claim_C9_amended_witness :
    slugify (slugify "Flyer to Calendar!") = slugify "Flyer to Calendar!" :=
  claim_C9_amended "Flyer to Calendar!" (by decide)

/-- Claim C10, counterexample: at fields binding location and
description to the empty string but holding no timestamps — inside the
domain the claim quantifies over — no CanonicalEvent results: the
normalizer warns and raises `UnboundLocalError`, so nothing is passed
through. -/
theorem claim_C10_counterexample :
    create_ics_file [("location", JsonVal.str ""), ("description", JsonVal.str "")] =
      (true, Except.error PyExc.unboundLocalError) := rfl

/-- Claim C10, amended: whenever the Field Normalizer does yield a
CanonicalEvent, the location and description defaults apply only to
absent keys: a present key bound to the empty string passes through
unchanged. -/
theorem claim_C10_amended (d : List (String × JsonVal)) (ev : IcsEvent) (w : Bool)
    (h : create_ics_file d = (w, Except.ok ev)) :
    (d.lookup "location" = some (JsonVal.str "") → ev.location = JsonVal.str "") ∧
    (d.lookup "description" = some (JsonVal.str "") → ev.description = JsonVal.str "") := by
  unfold create_ics_file at h
  constructor <;> intro hk <;> rw [hk] at h <;> split at h <;>
    first
    | · simp only [Prod.mk.injEq, Except.ok.injEq] at h
        obtain ⟨hw, hev⟩ := h
        subst hev
        rfl
    | simp at h

/-- Claim C10, witness: the amended theorem applied to fields binding
location and description to the empty string alongside parseable
timestamps. -/
theorem claim_C10_witness :
    evEmptyLocParsed.location = JsonVal.str "" ∧
    evEmptyLocParsed.description = JsonVal.str "" :=
  ⟨(claim_C10_amended dEmptyLocDates evEmptyLocParsed false rfl).1 rfl,
   (claim_C10_amended dEmptyLocDates evEmptyLocParsed false rfl).2 rfl⟩
